import Mathlib

/-!
Verification development for the SMS/MMS thread-reconciliation engine
(`projects/sms/combine_eml_sms_to_json.py`).

The Python source is shallowly embedded below.  Python strings that may be
`None` are modelled as `Option String` (with `none` for `None` and
`some ""` for the empty string), and Python truthiness on such values is
modelled by `pytruthy`.  Python sets are modelled as duplicate-free lists
built with `setAdd` (only membership is ever consumed).  The SHA-1
attachment digest is modelled by the exact byte stream that the source
feeds to the hash (the concatenation of filename, content type and base64
data of every attachment, in order), i.e. the model treats the hash as
injective on its input.  I/O (warning prints, file writes) is outside the
model; the reconciliation logic itself is translated line by line.
-/

set_option maxHeartbeats 1000000
set_option maxRecDepth 4096

/-- Python truthiness for an optional string: `None` and `""` are falsy. -/
def pytruthy : Option String → Bool
  | none => false
  | some s => !(s == "")

/-- Python `a or b` on optional strings. -/
def pyor (a b : Option String) : Option String :=
  if pytruthy a then a else b

/-- Python `str.strip()` (whitespace trim on both ends). -/
def pyStrip (s : String) : String :=
  String.mk (((s.toList.dropWhile Char.isWhitespace).reverse.dropWhile Char.isWhitespace).reverse)

/-- Python `str.lower()` (ASCII case folding, as used by the source on addresses). -/
def pyLower (s : String) : String :=
  String.mk (s.toList.map Char.toLower)

/-- Python substring test `needle in hay` on character lists. -/
def containsSub (needle : List Char) : List Char → Bool
  | [] => needle.isPrefixOf []
  | c :: t => needle.isPrefixOf (c :: t) || containsSub needle t

/-- Python substring test `needle in hay` on strings. -/
def strContains (hay needle : String) : Bool :=
  containsSub needle.toList hay.toList

/-- Code-point comparison of characters (Python string ordering). -/
def charLt (a b : Char) : Bool := a.val < b.val

/-- Lexicographic code-point comparison of character lists. -/
def listLt : List Char → List Char → Bool
  | [], [] => false
  | [], _ :: _ => true
  | _ :: _, [] => false
  | a :: as, b :: bs => charLt a b || (a == b && listLt as bs)

/-- Python `a < b` on strings. -/
def strLtB (a b : String) : Bool := listLt a.toList b.toList

/-- Set insertion on the list model of a Python set. -/
def setAdd (S : List String) (x : String) : List String :=
  if x ∈ S then S else S ++ [x]

/-- Stable insertion used by `ssortBy`. -/
def insortBy (le : α → α → Bool) (x : α) : List α → List α
  | [] => [x]
  | y :: ys => if le x y then x :: y :: ys else y :: insortBy le x ys

/-- Stable sort (same result as Python `list.sort` for a total preorder). -/
def ssortBy (le : α → α → Bool) : List α → List α
  | [] => []
  | x :: xs => insortBy le x (ssortBy le xs)

/-- Digits of the local part: `re.sub(r'\D', '', s.split('@', 1)[0])`
(modelled on ASCII digits, which covers every string the source feeds it). -/
def digitsOf (l : List Char) : List Char :=
  (l.takeWhile (fun c => c != '@')).filter (fun c => c.isDigit)

/-- Trunk normalization of the source: drop the leading `'1'` when the
digit string has length 11 and starts with `'1'`. -/
def trunkNorm (d : List Char) : List Char :=
  if d.length = 11 ∧ ['1'].isPrefixOf d then d.drop 1 else d

/-- Body of `sanitize_phoneish` for a nonempty string. -/
def sanitize_core (l : List Char) : Option String :=
  if 7 ≤ (trunkNorm (digitsOf l)).length then some (String.mk (trunkNorm (digitsOf l))) else none

/-- Source `sanitize_phoneish`: `None` for falsy input, else the digit
string of the local part, trunk-normalized, accepted when at least 7 digits
remain. -/
def sanitize_phoneish : Option String → Option String
  | none => none
  | some s => if s.toList = [] then none else sanitize_core s.toList

/-- Source `is_proper_10_digit_number`. -/
def is_proper_10_digit_number (s : Option String) : Bool :=
  match sanitize_phoneish (some (s.getD "")) with
  | none => false
  | some ph => ph.toList.length == 10

/-- Source `normalize_addr`: `(s or "").strip().lower()`. -/
def normalize_addr (s : Option String) : String :=
  pyLower (pyStrip (s.getD ""))

/-- Source `phone_variants`: the written forms of a 10-digit phone number
(the Python set is modelled as a list; only membership is consumed). -/
def phone_variants (digits : String) : List String :=
  if digits.toList.length = 10 then
    [digits, "1" ++ digits, "+1" ++ digits,
     digits ++ "@unknown.email", "1" ++ digits ++ "@unknown.email", "+1" ++ digits ++ "@unknown.email"]
  else
    [digits]

/-- Loop body of `build_self_set` for one configured identifier: normalize
it, add it, and when it is phone-ish also add the normalized written
variants. -/
def selfStep (S : List String) (t0 : String) : List String :=
  if normalize_addr (some t0) = "" then S
  else
    match sanitize_phoneish (some (normalize_addr (some t0))) with
    | none => setAdd S (normalize_addr (some t0))
    | some ph =>
      (phone_variants ph).foldl (fun acc x => setAdd acc (normalize_addr (some x)))
        (setAdd S (normalize_addr (some t0)))

/-- Source `build_self_set`. -/
def build_self_set (self_identifiers : List String) : List String :=
  self_identifiers.foldl selfStep []

/-- Source `is_self_addr`: exact match against the self set, falling back to
phone-digit equality. -/
def is_self_addr (addr : Option String) (SELF : List String) : Bool :=
  if !(pytruthy addr) then false
  else
    let a := normalize_addr addr
    if a ∈ SELF then true
    else
      match sanitize_phoneish (some a) with
      | none => false
      | some ph => SELF.any (fun s => sanitize_phoneish (some s) == some ph)

/-- Source `canonical_name` with the module-level `ALIAS` table, which is the
empty dict in the source, so both alias lookups always miss. -/
def canonical_name (name_or_addr : Option String) : Option String :=
  match name_or_addr with
  | none => none
  | some s =>
    if s = "" then none
    else
      pyor (match sanitize_phoneish (some s) with
            | none => some s
            | some ph => some ph) (some s)

/-- Raw message record as consumed by the direction resolver: the already
extracted header values of one parsed `.eml` file (`getaddresses` pairs for
From/To, the two `X-smssync` hints, the folder-label header values that are
present, in order, and the Message-ID). -/
structure RawMsg where
  xsmstype : Option String
  xsmsaddress : Option String
  from_pairs : List (String × String)
  to_pairs : List (String × String)
  folder_vals : List String
  message_id : Option String
deriving DecidableEq

/-- Source `folder_hint_direction`: concatenation of the candidate header
values, lowercased; "sent" means out, "inbox"/"received" means in. -/
def folder_hint_direction (m : RawMsg) : Option String :=
  let val := m.folder_vals.foldl (fun acc v => acc ++ " " ++ v) ""
  let val_l := pyLower val
  if pyStrip val_l = "" then none
  else if strContains val_l "sent" || strContains val_l "[gmail]/sent" || strContains val_l "sent mail" then some "out"
  else if strContains val_l "inbox" || strContains val_l "[gmail]/inbox" || strContains val_l "received" then some "in"
  else none

/-- Source local `first_addr`: first (name, addr) pair with empty-to-None
normalization of both components. -/
def first_addr (addrs : List (String × String)) : Option String × Option String :=
  match addrs with
  | [] => (none, none)
  | (name, addr) :: _ =>
    ((if pyStrip name = "" then none else some (pyStrip name)),
     (if pyStrip addr = "" then none else some (pyStrip addr)))

/-- Result record of `guess_direction_and_parties`. -/
structure DirResult where
  direction : String
  person_name : Option String
  person_addr : Option String
  self_addr : Option String
deriving DecidableEq

/-- Phone-digit alignment of the `X-smssync-address` hint against the header
addresses (shared by precedence step 2 and the ambiguous branch). -/
def phone_hdr_match (person_addr_hdr : String) (from_name from_addr to_name to_addr : Option String) :
    Option DirResult :=
  if person_addr_hdr = "" then none
  else
    match sanitize_phoneish (some person_addr_hdr) with
    | none => none
    | some ph_hdr =>
      if sanitize_phoneish (some (from_addr.getD "")) = some ph_hdr then
        some ⟨"in", from_name, some person_addr_hdr, to_addr⟩
      else if sanitize_phoneish (some (to_addr.getD "")) = some ph_hdr then
        some ⟨"out", to_name, some person_addr_hdr, from_addr⟩
      else none

/-- Precedence step 2 of the source: `X-smssync-address` alignment, first by
string containment, then by phone-digit equality. -/
def sync_addr_align (person_addr_hdr : String) (from_name from_addr to_name to_addr : Option String) :
    Option DirResult :=
  if person_addr_hdr = "" then none
  else if pytruthy from_addr && strContains (from_addr.getD "") person_addr_hdr then
    some ⟨"in", from_name, some person_addr_hdr, to_addr⟩
  else if pytruthy to_addr && strContains (to_addr.getD "") person_addr_hdr then
    some ⟨"out", to_name, some person_addr_hdr, from_addr⟩
  else phone_hdr_match person_addr_hdr from_name from_addr to_name to_addr

/-- Source `guess_direction_and_parties`: the full evidence-precedence
cascade.  The ambiguous branch is reached exactly when neither explicit hint
fired and the two headers have the same self status, so the source guard
`from_self == to_self` is always true there; its stderr warning is I/O and
outside the model. -/
def guess_direction_and_parties (m : RawMsg) (self_emails : List String) : DirResult :=
  let SELF := build_self_set self_emails
  let smstype := pyStrip (m.xsmstype.getD "")
  let person_addr_hdr := pyStrip (m.xsmsaddress.getD "")
  let from_name := (first_addr m.from_pairs).1
  let from_addr := (first_addr m.from_pairs).2
  let to_name := (first_addr m.to_pairs).1
  let to_addr := (first_addr m.to_pairs).2
  if smstype = "1" then ⟨"in", from_name, from_addr, to_addr⟩
  else if smstype = "2" then ⟨"out", to_name, to_addr, from_addr⟩
  else
    match sync_addr_align person_addr_hdr from_name from_addr to_name to_addr with
    | some r => r
    | none =>
      let from_self := is_self_addr from_addr SELF
      let to_self := is_self_addr to_addr SELF
      if from_self && !to_self then
        ⟨"out", to_name, pyor (pyor to_addr (some person_addr_hdr)) to_name, from_addr⟩
      else if to_self && !from_self then
        ⟨"in", from_name, pyor (pyor from_addr (some person_addr_hdr)) from_name, to_addr⟩
      else
        match folder_hint_direction m with
        | some "in" => ⟨"in", from_name, pyor from_addr (some person_addr_hdr), to_addr⟩
        | some "out" => ⟨"out", to_name, pyor to_addr (some person_addr_hdr), from_addr⟩
        | _ =>
          match phone_hdr_match person_addr_hdr from_name from_addr to_name to_addr with
          | some r => r
          | none =>
            match ([(from_name, from_addr), (to_name, to_addr)]).filter
                (fun c => !(is_self_addr c.2 SELF)) with
            | [] => ⟨"out", pyor to_name from_name,
                     pyor (pyor to_addr from_addr) (some person_addr_hdr), pyor from_addr to_addr⟩
            | c :: _ =>
              if c.2 = from_addr then ⟨"in", from_name, pyor from_addr (some person_addr_hdr), to_addr⟩
              else ⟨"out", to_name, pyor to_addr (some person_addr_hdr), from_addr⟩

/-- Source `is_improper_counterpart`: phone-shaped (has digits, no `@`) but
not exactly 10 digits after trunk normalization. -/
def is_improper_counterpart : Option String → Bool
  | none => false
  | some s0 =>
    if s0 = "" then false
    else
      let s := pyStrip s0
      if strContains s "@" then false
      else
        let digits := s.toList.filter (fun c => c.isDigit)
        if digits = [] then false
        else
          let digits2 := if digits.length = 11 ∧ ['1'].isPrefixOf digits then digits.drop 1 else digits
          !(digits2.length == 10)

/-- Participant observation: the `{"name", "addr", "phone"}` dict the source
collects from the From/To headers of one message. -/
structure Participant where
  name : Option String
  addr : Option String
  phone : Option String
deriving DecidableEq

/-- Source `looks_like_phone_label`: at least 7 digits. -/
def looks_like_phone_label : Option String → Bool
  | none => false
  | some s =>
    if s = "" then false
    else 7 ≤ (s.toList.filter (fun c => c.isDigit)).length

/-- Source `is_better_name`: prefer a human name over a phone-like label. -/
def is_better_name (old new : Option String) : Bool :=
  if !(pytruthy new) then false
  else if !(pytruthy old) then true
  else looks_like_phone_label old && !(looks_like_phone_label new)

/-- Merge key of `participant_key`; the `anon` constructor models the
`f"anon:{id(p)}"` fallback, with the list position standing in for the
(pairwise-distinct) object identity of each observation. -/
inductive PKey where
  | phone (s : String)
  | addr (s : String)
  | name (s : String)
  | anon (n : Nat)
deriving DecidableEq

/-- Source `participant_key` of the observation at position `idx`. -/
def participant_key (idx : Nat) (p : Participant) : PKey :=
  if pytruthy p.phone then PKey.phone (p.phone.getD "")
  else if normalize_addr p.addr ≠ "" then PKey.addr (normalize_addr p.addr)
  else if normalize_addr p.name ≠ "" then PKey.name (normalize_addr p.name)
  else PKey.anon idx

/-- The in-place merge the source performs on an existing bucket: better
names win, missing addr/phone fields are backfilled. -/
def mergePart (cur p : Participant) : Participant :=
  { name := if is_better_name cur.name p.name then p.name else cur.name
    addr := if !(pytruthy cur.addr) && pytruthy p.addr then p.addr else cur.addr
    phone := if !(pytruthy cur.phone) && pytruthy p.phone then p.phone else cur.phone }

/-- Update of the insertion-ordered bucket map (`out` dict of the source):
a new key is appended, an existing key is merged in place. -/
def upInsert (key : PKey) (p : Participant) : List (PKey × Participant) → List (PKey × Participant)
  | [] => [(key, ⟨p.name, p.addr, p.phone⟩)]
  | (k, cur) :: rest =>
    if k = key then (k, mergePart cur p) :: rest else (k, cur) :: upInsert key p rest

/-- The bucket-building loop of `unique_participants`. -/
def upAux : Nat → List Participant → List (PKey × Participant) → List (PKey × Participant)
  | _, [], out => out
  | i, p :: rest, out => upAux (i + 1) rest (upInsert (participant_key i p) p out)

/-- Sort comparator of `unique_participants`: Python tuple order on
`(phone or "", addr or "", name or "")`. -/
def partLe (a b : Participant) : Bool :=
  let p1 := a.phone.getD ""
  let p2 := b.phone.getD ""
  let a1 := a.addr.getD ""
  let a2 := b.addr.getD ""
  let n1 := a.name.getD ""
  let n2 := b.name.getD ""
  strLtB p1 p2 || (p1 == p2 && (strLtB a1 a2 || (a1 == a2 && (strLtB n1 n2 || n1 == n2))))

/-- Source `unique_participants`: merge observations by key, then sort the
bucket values deterministically. -/
def unique_participants (part_list : List Participant) : List Participant :=
  ssortBy partLe ((upAux 0 part_list []).map Prod.snd)

/-- Attachment descriptor as stored on a parsed message. -/
structure Attachment where
  filename : String
  content_type : String
  data_b64 : String
deriving DecidableEq

/-- The fields of the source `ParsedMessage` dataclass consumed by the
dedup, grouping and skip logic. -/
structure ParsedMessage where
  msg_id : Option String
  timestamp_ms : Int
  body_text : String
  atts : List Attachment
  participants : List Participant
  person_name : Option String
deriving DecidableEq

/-- Stripped message identifier, `(m.msg_id or "").strip()`. -/
def midOf (m : ParsedMessage) : String :=
  pyStrip (m.msg_id.getD "")

/-- The byte stream the source feeds to the SHA-1 attachment digest
(filename, content type, base64 data of every attachment, in order); the
model uses the stream itself in place of its hash. -/
def att_digest (m : ParsedMessage) : String :=
  m.atts.foldl (fun h a => h ++ a.filename ++ a.content_type ++ a.data_b64) ""

/-- Message fingerprint `(timestamp_ms, body_text or "", att_digest)`. -/
def fpOf (m : ParsedMessage) : Int × String × String :=
  (m.timestamp_ms, m.body_text, att_digest m)

/-- The single dedup loop of `dedupe_messages`, with its two seen-sets. -/
def dedupeAux : List ParsedMessage → List String → List (Int × String × String) →
    List ParsedMessage × Nat
  | [], _, _ => ([], 0)
  | m :: rest, ids, fps =>
    if midOf m ≠ "" ∧ midOf m ∈ ids then
      let r := dedupeAux rest ids fps
      (r.1, r.2 + 1)
    else if fpOf m ∈ fps then
      let r := dedupeAux rest ids fps
      (r.1, r.2 + 1)
    else
      let r := dedupeAux rest (if midOf m ≠ "" then midOf m :: ids else ids) (fpOf m :: fps)
      (m :: r.1, r.2)

/-- Source `dedupe_messages`: surviving messages plus removed count. -/
def dedupe_messages (messages : List ParsedMessage) : List ParsedMessage × Nat :=
  dedupeAux messages [] []

/-- Identifiers of the previously kept messages (nonempty ones only). -/
def keptMids (kept : List ParsedMessage) : List String :=
  (kept.map midOf).filter (fun x => x != "")

/-- Fingerprints of the previously kept messages. -/
def keptFps (kept : List ParsedMessage) : List (Int × String × String) :=
  kept.map fpOf

/-- Kept-based reference for dedup: a message is dropped iff some earlier
kept message shares its nonempty identifier or its fingerprint; nothing is
recorded for dropped messages. -/
def keptRefAux : List ParsedMessage → List ParsedMessage → List ParsedMessage × Nat
  | [], _ => ([], 0)
  | m :: rest, kept =>
    if (midOf m ≠ "" ∧ (∃ k ∈ kept, midOf k = midOf m)) ∨ (∃ k ∈ kept, fpOf k = fpOf m) then
      let r := keptRefAux rest kept
      (r.1, r.2 + 1)
    else
      let r := keptRefAux rest (kept ++ [m])
      (m :: r.1, r.2)

/-- Kept-based dedup reference, started from no kept messages. -/
def keptRef (ms : List ParsedMessage) : List ParsedMessage × Nat :=
  keptRefAux ms []

/-- Identifier-only dedup pass of the claimed two-pass reference. -/
def idPassAux : List ParsedMessage → List String → List ParsedMessage × Nat
  | [], _ => ([], 0)
  | m :: rest, ids =>
    if midOf m ≠ "" ∧ midOf m ∈ ids then
      let r := idPassAux rest ids
      (r.1, r.2 + 1)
    else
      let r := idPassAux rest (if midOf m ≠ "" then midOf m :: ids else ids)
      (m :: r.1, r.2)

/-- Fingerprint-only dedup pass of the claimed two-pass reference. -/
def fpPassAux : List ParsedMessage → List (Int × String × String) → List ParsedMessage × Nat
  | [], _ => ([], 0)
  | m :: rest, fps =>
    if fpOf m ∈ fps then
      let r := fpPassAux rest fps
      (r.1, r.2 + 1)
    else
      let r := fpPassAux rest (fpOf m :: fps)
      (m :: r.1, r.2)

/-- The two-pass reference described by the claim: an identifier pass over
all messages, then a fingerprint pass over its survivors. -/
def twoPassRef (ms : List ParsedMessage) : List ParsedMessage × Nat :=
  ((fpPassAux (idPassAux ms []).1 []).1, (idPassAux ms []).2 + (fpPassAux (idPassAux ms []).1 []).2)

/-- Sort comparator of `combine_for_person`: `(timestamp_ms, msg_id or "")`. -/
def msgLe (a b : ParsedMessage) : Bool :=
  decide (a.timestamp_ms < b.timestamp_ms) ||
    (a.timestamp_ms == b.timestamp_ms &&
      (strLtB (a.msg_id.getD "") (b.msg_id.getD "") || (a.msg_id.getD "") == (b.msg_id.getD "")))

/-- Finalized message list of a thread: dedup, then chronological sort. -/
def threadMessages (msgs : List ParsedMessage) : List ParsedMessage :=
  ssortBy msgLe (dedupe_messages msgs).1

/-- Deduplicated participant set of a finalized thread. -/
def threadParts (msgs : List ParsedMessage) : List Participant :=
  unique_participants ((threadMessages msgs).foldr (fun m acc => m.participants ++ acc) [])

/-- Group classification: two or more deduplicated non-self participants. -/
def threadIsGroup (msgs : List ParsedMessage) : Bool :=
  2 ≤ (threadParts msgs).length

/-- Count of occurrences of a string in a list (Python `Counter` count). -/
def countOcc (l : List String) (x : String) : Nat :=
  (l.filter (fun y => y == x)).length

/-- Unique elements in first-occurrence order (Python `Counter` key order). -/
def dedupFirst (l : List String) : List String :=
  l.foldl (fun acc x => if x ∈ acc then acc else acc ++ [x]) []

/-- Python `Counter(l).most_common(1)[0][0]`: a maximal-count element,
earliest first occurrence winning ties. -/
def mostCommon (l : List String) : Option String :=
  match dedupFirst l with
  | [] => none
  | h :: t => some ((h :: t).foldl (fun best x => if countOcc l best < countOcc l x then x else best) h)

/-- Counterpart identifier of a one-to-one thread, exactly as computed in
the 1:1 branch of `combine_for_person`:
`addr or canonical_name(most_common_name or name or phone or addr) or person_key`. -/
def threadCounterpart (person_key : String) (msgs : List ParsedMessage) : Option String :=
  let messages := threadMessages msgs
  let dedup_parts := threadParts msgs
  let names := messages.filterMap (fun m => if pytruthy m.person_name then m.person_name else none)
  let most_common_name := mostCommon names
  let uniq : Participant := dedup_parts.headD ⟨none, none, none⟩
  let addr := uniq.addr
  let name := canonical_name (pyor (pyor (pyor most_common_name uniq.name) uniq.phone) addr)
  pyor (pyor addr name) (some person_key)

/-- The skip decision of `combine_for_person` (everything up to and
including the two skip checks): returns the skip reason, if any, together
with the dedup-removed count that the caller always accumulates. -/
def combineSkip (person_key : String) (msgs : List ParsedMessage) : Option String × Nat :=
  if (threadMessages msgs).length ≤ 1 then
    (some "single_message_thread", (dedupe_messages msgs).2)
  else if !(threadIsGroup msgs) && is_improper_counterpart (threadCounterpart person_key msgs) then
    (some "improper_number_thread", (dedupe_messages msgs).2)
  else (none, (dedupe_messages msgs).2)

/-- The reconciliation report accumulated by `main` over all thread
buckets (output paths and timestamps are I/O and outside the model). -/
structure RunReport where
  threads_written : List (String × Nat × Nat)
  skipped : List (String × String × Nat)
  improper_threads : List String
  messages_total : Nat
  messages_skipped : Nat
  total_dedup_removed : Nat
deriving DecidableEq

/-- The per-thread loop of `main`: totals, skip bookkeeping and the list of
written threads, processed in bucket order. -/
def processGroups : List (String × List ParsedMessage) → RunReport
  | [] => ⟨[], [], [], 0, 0, 0⟩
  | g :: rest =>
    let r := processGroups rest
    let res := combineSkip g.1 g.2
    let n := g.2.length
    let r1 : RunReport :=
      { r with messages_total := n + r.messages_total,
               total_dedup_removed := res.2 + r.total_dedup_removed }
    if res.1 = some "single_message_thread" then
      { r1 with skipped := (g.1, "single_message_thread", n) :: r1.skipped,
                messages_skipped := n + r1.messages_skipped }
    else if res.1 = some "improper_number_thread" then
      { r1 with skipped := (g.1, "improper_number_thread", n) :: r1.skipped,
                messages_skipped := n + r1.messages_skipped,
                improper_threads := g.1 :: r1.improper_threads }
    else
      { r1 with threads_written := (g.1, n, res.2) :: r1.threads_written }

/-- Report field `messages_written`:
`sum(n for written) - sum(dedup_removed for written)`. -/
def messages_written (r : RunReport) : Int :=
  (r.threads_written.map (fun t => (t.2.1 : Int))).sum -
    (r.threads_written.map (fun t => (t.2.2 : Int))).sum

/-- Duplicate messages removed inside threads that end up skipped. -/
def removedInSkipped (groups : List (String × List ParsedMessage)) : Int :=
  ((groups.filter (fun g => (combineSkip g.1 g.2).1 ≠ none)).map
    (fun g => ((combineSkip g.1 g.2).2 : Int))).sum

/-- The phone-candidate rule of the amended claim C1, stated from its
words: take the portion before any at-sign, keep only the digits, drop a
leading trunk digit when exactly 11 digits remain, and accept the result
only when at least 7 digits remain. -/
def trunkNormAmended (d : List Char) : List Char :=
  if d.length = 11 ∧ d.head? = some '1' then d.tail else d

/-- Acceptance rule of the amended claim C1: reject when fewer than 7
digits remain after trunk normalization. -/
def amended_core (l : List Char) : Option String :=
  if (trunkNormAmended (digitsOf l)).length < 7 then none
  else some (String.mk (trunkNormAmended (digitsOf l)))

/-- The amended claim's phone candidate for an arbitrary input string. -/
def phoneCandidateAmended (s : String) : Option String :=
  amended_core s.toList

/-- Proof device for dedup idempotence: a list is a dedup chain for the
given seen-sets when every element is new at its position. -/
def DChain : List ParsedMessage → List String → List (Int × String × String) → Prop
  | [], _, _ => True
  | m :: rest, ids, fps =>
    ¬(midOf m ≠ "" ∧ midOf m ∈ ids) ∧ fpOf m ∉ fps ∧
      DChain rest (if midOf m ≠ "" then midOf m :: ids else ids) (fpOf m :: fps)

/-! Concrete inputs used by counterexamples and witnesses. -/

/-- A short-code (5-digit) participant observation. -/
def part58988 : Participant := ⟨none, some "58988", none⟩

/-- First message of the short-code thread. -/
def pmI1 : ParsedMessage := ⟨none, 0, "one", [], [part58988], none⟩

/-- Second message of the short-code thread (distinct fingerprint). -/
def pmI2 : ParsedMessage := ⟨none, 1, "two", [], [part58988], none⟩

/-- Group participant observation a. -/
def partA : Participant := ⟨none, some "a@x.com", none⟩

/-- Group participant observation b. -/
def partB : Participant := ⟨none, some "b@x.com", none⟩

/-- First message of a group thread. -/
def pmG1 : ParsedMessage := ⟨none, 0, "g1", [], [partA, partB], none⟩

/-- Second message of a group thread (distinct fingerprint). -/
def pmG2 : ParsedMessage := ⟨none, 1, "g2", [], [partA, partB], none⟩

/-- A message with no identifier. -/
def mA : ParsedMessage := ⟨none, 0, "a", [], [], none⟩

/-- A message sharing mA's fingerprint but carrying identifier X. -/
def mB : ParsedMessage := ⟨some "X", 0, "a", [], [], none⟩

/-- A message with identifier X and a fresh fingerprint. -/
def mC : ParsedMessage := ⟨some "X", 0, "b", [], [], none⟩

/-- A message used twice to build a thread of two exact duplicates. -/
def mD : ParsedMessage := ⟨none, 5, "dup", [], [], none⟩

/-- A single-message thread input. -/
def pmW5 : ParsedMessage := ⟨some "id5", 10, "w", [], [], none⟩

/-- Record whose explicit type hint contradicts the self-set evidence. -/
def msgC2 : RawMsg := ⟨some "1", none, [("", "self@x.com")], [("", "other@x.com")], [], none⟩

/-- Record with no hints, self in From, non-self in To. -/
def msgW2 : RawMsg := ⟨none, none, [("", "self@x.com")], [("", "other@x.com")], [], none⟩

/-- Bucket whose name is a phone-like label and whose addr is recorded. -/
def partCurW : Participant := ⟨some "5551234567", some "x@y", none⟩

/-- Observation carrying a human-readable name. -/
def partNewW : Participant := ⟨some "Alice", some "z@w", some "5551234567"⟩

/-! Helper lemmas. -/

theorem insortBy_length (le : α → α → Bool) (x : α) (l : List α) :
    (insortBy le x l).length = l.length + 1 := by
  induction l with
  | nil => rfl
  | cons y ys ih =>
    simp only [insortBy]
    split
    · simp
    · simp [ih]

theorem ssortBy_length (le : α → α → Bool) (l : List α) :
    (ssortBy le l).length = l.length := by
  induction l with
  | nil => rfl
  | cons x xs ih => simp [ssortBy, insortBy_length, ih]

theorem dedupeAux_count (ms : List ParsedMessage) :
    ∀ ids fps, (dedupeAux ms ids fps).1.length + (dedupeAux ms ids fps).2 = ms.length := by
  induction ms with
  | nil => intro ids fps; rfl
  | cons m rest ih =>
    intro ids fps
    simp only [dedupeAux]
    by_cases h1 : midOf m ≠ "" ∧ midOf m ∈ ids
    · rw [if_pos h1]
      have := ih ids fps
      simp only [List.length_cons]
      omega
    · rw [if_neg h1]
      by_cases h2 : fpOf m ∈ fps
      · rw [if_pos h2]
        have := ih ids fps
        simp only [List.length_cons]
        omega
      · rw [if_neg h2]
        have := ih (if midOf m ≠ "" then midOf m :: ids else ids) (fpOf m :: fps)
        simp only [List.length_cons]
        omega

theorem dedupeAux_chain (ms : List ParsedMessage) :
    ∀ ids fps, DChain (dedupeAux ms ids fps).1 ids fps := by
  induction ms with
  | nil => intro ids fps; trivial
  | cons m rest ih =>
    intro ids fps
    simp only [dedupeAux]
    by_cases h1 : midOf m ≠ "" ∧ midOf m ∈ ids
    · rw [if_pos h1]; exact ih ids fps
    · rw [if_neg h1]
      by_cases h2 : fpOf m ∈ fps
      · rw [if_pos h2]; exact ih ids fps
      · rw [if_neg h2]
        exact ⟨h1, h2, ih (if midOf m ≠ "" then midOf m :: ids else ids) (fpOf m :: fps)⟩

theorem dedupeAux_fix (ms : List ParsedMessage) :
    ∀ ids fps, DChain ms ids fps → dedupeAux ms ids fps = (ms, 0) := by
  induction ms with
  | nil => intro ids fps _; rfl
  | cons m rest ih =>
    intro ids fps h
    obtain ⟨h1, h2, h3⟩ := h
    simp only [dedupeAux]
    rw [if_neg h1, if_neg h2, ih _ _ h3]

/-- Claim C8: message deduplication is idempotent — running the dedup loop
on its own surviving list removes zero further messages and returns the
list unchanged. -/
theorem dedupe_messages_idempotent (ms : List ParsedMessage) :
    dedupe_messages (dedupe_messages ms).1 = ((dedupe_messages ms).1, 0) :=
  dedupeAux_fix _ [] [] (dedupeAux_chain ms [] [])

theorem prefix_one_iff (l : List Char) : (['1'].isPrefixOf l = true) ↔ l.head? = some '1' := by
  cases l with
  | nil => decide
  | cons c cs =>
    have h1 : (['1'].isPrefixOf (c :: cs)) = (('1' == c) && (([] : List Char).isPrefixOf cs)) := rfl
    have h2 : (([] : List Char).isPrefixOf cs) = true := by cases cs <;> rfl
    rw [h1, h2, Bool.and_true, List.head?_cons]
    constructor
    · intro h
      exact congrArg some (eq_of_beq h).symm
    · intro h
      have hc : c = '1' := Option.some.inj h
      rw [hc]
      decide

theorem trunkNorm_eq (d : List Char) : trunkNorm d = trunkNormAmended d := by
  unfold trunkNorm trunkNormAmended
  exact if_congr (and_congr Iff.rfl (prefix_one_iff d)) (List.drop_one d) rfl

theorem sanitize_core_eq (l : List Char) :
    (if l = [] then none else sanitize_core l) = amended_core l := by
  by_cases hl : l = []
  · subst hl
    rfl
  · rw [if_neg hl]
    unfold sanitize_core amended_core
    rw [trunkNorm_eq]
    by_cases h7 : 7 ≤ (trunkNormAmended (digitsOf l)).length
    · rw [if_pos h7, if_neg (by omega)]
    · rw [if_neg h7, if_pos (by omega)]

/-- Claim C1 (amended): the Identity Normalizer's phone candidate equals
the amended rule — local part before any at-sign, digits only, trunk-1
dropped from an 11-digit result, accepted iff at least 7 digits remain. -/
theorem sanitize_phoneish_eq_amended (s : String) :
    sanitize_phoneish (some s) = phoneCandidateAmended s :=
  sanitize_core_eq s.toList

/-- Claim C1 counterexample: the string "1234567" normalizes to 7 digits,
not 10, yet the source produces a phone candidate for it, so the claimed
"exactly 10 digits" acceptance rule is false of the code. -/
theorem sanitize_phoneish_c1_counterexample :
    sanitize_phoneish (some "1234567") = some "1234567" ∧
      ¬ ((("1234567" : String).toList.filter (fun c => c.isDigit)).length = 10) := by
  constructor
  · decide
  · decide

theorem mem_keptMids (kept : List ParsedMessage) (x : String) (hx : x ≠ "") :
    x ∈ keptMids kept ↔ ∃ k ∈ kept, midOf k = x := by
  unfold keptMids
  rw [List.mem_filter]
  simp [List.mem_map, bne_iff_ne, hx]

theorem mem_keptFps (kept : List ParsedMessage) (f : Int × String × String) :
    f ∈ keptFps kept ↔ ∃ k ∈ kept, fpOf k = f := by
  unfold keptFps
  simp [List.mem_map]

theorem keptMids_append (kept : List ParsedMessage) (m : ParsedMessage) :
    keptMids (kept ++ [m]) = keptMids kept ++ (if midOf m ≠ "" then [midOf m] else []) := by
  unfold keptMids
  rw [List.map_append, List.filter_append]
  congr 1
  by_cases h : midOf m = "" <;> simp [h]

theorem keptFps_append (kept : List ParsedMessage) (m : ParsedMessage) :
    keptFps (kept ++ [m]) = keptFps kept ++ [fpOf m] := by
  unfold keptFps
  simp

theorem dedupeAux_eq_keptRefAux (ms : List ParsedMessage) :
    ∀ (ids : List String) (fps : List (Int × String × String)) (kept : List ParsedMessage),
      (∀ x, x ∈ ids ↔ x ∈ keptMids kept) →
      (∀ f, f ∈ fps ↔ f ∈ keptFps kept) →
      dedupeAux ms ids fps = keptRefAux ms kept := by
  induction ms with
  | nil => intro ids fps kept _ _; rfl
  | cons m rest ih =>
    intro ids fps kept hid hfp
    have hc1 : (midOf m ≠ "" ∧ midOf m ∈ ids) ↔ (midOf m ≠ "" ∧ ∃ k ∈ kept, midOf k = midOf m) := by
      constructor
      · rintro ⟨ha, hb⟩
        exact ⟨ha, (mem_keptMids kept (midOf m) ha).1 ((hid (midOf m)).1 hb)⟩
      · rintro ⟨ha, hb⟩
        exact ⟨ha, (hid (midOf m)).2 ((mem_keptMids kept (midOf m) ha).2 hb)⟩
    have hc2 : (fpOf m ∈ fps) ↔ (∃ k ∈ kept, fpOf k = fpOf m) := by
      rw [hfp (fpOf m), mem_keptFps]
    simp only [dedupeAux, keptRefAux]
    by_cases h1 : midOf m ≠ "" ∧ midOf m ∈ ids
    · rw [if_pos h1, if_pos (Or.inl (hc1.1 h1)), ih ids fps kept hid hfp]
    · by_cases h2 : fpOf m ∈ fps
      · rw [if_neg h1, if_pos h2, if_pos (Or.inr (hc2.1 h2)), ih ids fps kept hid hfp]
      · have hnor : ¬((midOf m ≠ "" ∧ ∃ k ∈ kept, midOf k = midOf m) ∨ (∃ k ∈ kept, fpOf k = fpOf m)) := by
          rintro (ha | hb)
          · exact h1 (hc1.2 ha)
          · exact h2 (hc2.2 hb)
        rw [if_neg h1, if_neg h2, if_neg hnor]
        have hid2 : ∀ x, x ∈ (if midOf m ≠ "" then midOf m :: ids else ids) ↔
            x ∈ keptMids (kept ++ [m]) := by
          intro x
          rw [keptMids_append]
          by_cases hm : midOf m ≠ ""
          · rw [if_pos hm, if_pos hm]
            simp only [List.mem_cons, List.mem_append, List.mem_singleton, hid x]
            tauto
          · rw [if_neg hm, if_neg hm]
            simp [hid x]
        have hfp2 : ∀ f, f ∈ fpOf m :: fps ↔ f ∈ keptFps (kept ++ [m]) := by
          intro f
          rw [keptFps_append]
          simp only [List.mem_cons, List.mem_append, List.mem_singleton, hfp f]
          tauto
        rw [ih _ _ (kept ++ [m]) hid2 hfp2]

/-- Claim C3 (amended): the single dedup loop equals the kept-based
reference, in which a message is dropped iff a previously kept message
shares its nonempty identifier or its fingerprint, and nothing is recorded
for dropped messages (in particular, a message dropped by the fingerprint
check does not record its identifier). -/
theorem dedupe_messages_eq_keptRef (ms : List ParsedMessage) :
    dedupe_messages ms = keptRef ms := by
  unfold dedupe_messages keptRef
  exact dedupeAux_eq_keptRefAux ms [] [] []
    (by intro x; simp [keptMids]) (by intro f; simp [keptFps])

/-- Claim C3 counterexample: on the messages mA, mB, mC the implemented
single loop keeps mA and mC with one removal, while the claimed two-pass
reference keeps only mA with two removals, so the claimed equivalence is
false. -/
theorem dedupe_ne_twoPass_counterexample :
    dedupe_messages [mA, mB, mC] ≠ twoPassRef [mA, mB, mC] := by
  decide

/-- Claim C2 counterexample: for `msgC2` exactly the From header matches
the self set, yet the explicit `X-smssync-type = 1` hint makes the resolver
return inbound, not the outbound the claim demands. -/
theorem direction_c2_counterexample :
    (guess_direction_and_parties msgC2 ["self@x.com"]).direction = "in" ∧
      is_self_addr (first_addr msgC2.from_pairs).2 (build_self_set ["self@x.com"]) = true ∧
      is_self_addr (first_addr msgC2.to_pairs).2 (build_self_set ["self@x.com"]) = false := by
  decide

/-- Claim C2 (amended): when neither explicit hint is present (no usable
type hint, empty counterpart-address hint) and exactly one of the From/To
header addresses matches the self set, the resolver returns outbound when
From is self and inbound when To is self; determinism is inherent, the
resolver being a pure function of the record and the self set. -/
theorem direction_self_rule (m : RawMsg) (selfs : List String)
    (h1 : pyStrip (m.xsmstype.getD "") ≠ "1")
    (h2 : pyStrip (m.xsmstype.getD "") ≠ "2")
    (h3 : pyStrip (m.xsmsaddress.getD "") = "") :
    (is_self_addr (first_addr m.from_pairs).2 (build_self_set selfs) = true →
      is_self_addr (first_addr m.to_pairs).2 (build_self_set selfs) = false →
      (guess_direction_and_parties m selfs).direction = "out") ∧
    (is_self_addr (first_addr m.to_pairs).2 (build_self_set selfs) = true →
      is_self_addr (first_addr m.from_pairs).2 (build_self_set selfs) = false →
      (guess_direction_and_parties m selfs).direction = "in") := by
  have halign : sync_addr_align (pyStrip (m.xsmsaddress.getD "")) (first_addr m.from_pairs).1
      (first_addr m.from_pairs).2 (first_addr m.to_pairs).1 (first_addr m.to_pairs).2 = none := by
    rw [h3]
    rfl
  constructor
  · intro hf ht
    simp only [guess_direction_and_parties]
    rw [if_neg h1, if_neg h2, halign]
    simp [hf, ht]
  · intro ht hf
    simp only [guess_direction_and_parties]
    rw [if_neg h1, if_neg h2, halign]
    simp [hf, ht]

/-- Witness for the amended claim C2 at a concrete record with self in
From and a non-self To. -/
theorem direction_self_rule_witness :
    (guess_direction_and_parties msgW2 ["self@x.com"]).direction = "out" :=
  (direction_self_rule msgW2 ["self@x.com"] (by decide) (by decide) (by decide)).1
    (by decide) (by decide)

theorem phone_hdr_match_dir (p : String) (fn fa tn ta : Option String) (r : DirResult)
    (h : phone_hdr_match p fn fa tn ta = some r) :
    r.direction = "in" ∨ r.direction = "out" := by
  unfold phone_hdr_match at h
  repeat' split at h
  all_goals first
    | exact Option.noConfusion h
    | (injection h with h2; subst h2; simp)

theorem sync_addr_align_dir (p : String) (fn fa tn ta : Option String) (r : DirResult)
    (h : sync_addr_align p fn fa tn ta = some r) :
    r.direction = "in" ∨ r.direction = "out" := by
  unfold sync_addr_align at h
  repeat' split at h
  all_goals first
    | exact Option.noConfusion h
    | (injection h with h2; subst h2; simp)
    | exact phone_hdr_match_dir _ _ _ _ _ _ h

/-- Claim C10: on every record and every self-identifier list (missing
headers and the empty list included) the direction resolver returns
exactly "in" or "out". -/
theorem direction_total (m : RawMsg) (selfs : List String) :
    (guess_direction_and_parties m selfs).direction = "in" ∨
      (guess_direction_and_parties m selfs).direction = "out" := by
  simp only [guess_direction_and_parties]
  repeat' split
  all_goals try simp
  all_goals first
    | exact sync_addr_align_dir _ _ _ _ _ _ (by assumption)
    | exact phone_hdr_match_dir _ _ _ _ _ _ (by assumption)

theorem combineSkip_single (pk : String) (msgs : List ParsedMessage)
    (h : (threadMessages msgs).length ≤ 1) :
    combineSkip pk msgs = (some "single_message_thread", (dedupe_messages msgs).2) := by
  unfold combineSkip
  rw [if_pos h]

/-- Claim C5: a thread with exactly one surviving message after dedup is
skipped with the single-message reason, is never written, and appears in
the skip log with that reason and its raw message count. -/
theorem thread_single_message_skipped (pk : String) (msgs : List ParsedMessage)
    (h : (threadMessages msgs).length = 1) :
    (combineSkip pk msgs).1 = some "single_message_thread" ∧
    ∀ rest, (processGroups ((pk, msgs) :: rest)).threads_written = (processGroups rest).threads_written ∧
      (pk, "single_message_thread", msgs.length) ∈ (processGroups ((pk, msgs) :: rest)).skipped := by
  have hs : combineSkip pk msgs = (some "single_message_thread", (dedupe_messages msgs).2) :=
    combineSkip_single pk msgs (by omega)
  refine ⟨by rw [hs], fun rest => ?_⟩
  constructor
  · simp [processGroups, hs]
  · simp [processGroups, hs]

/-- Witness for claim C5 at a concrete one-message thread. -/
theorem thread_single_message_skipped_witness :
    (combineSkip "w5" [pmW5]).1 = some "single_message_thread" :=
  (thread_single_message_skipped "w5" [pmW5] (by decide)).1

/-- Claim C4 counterexample: the one-message short-code thread is a
finalized one-to-one thread with an improper (5-digit) counterpart, yet it
is skipped with the single-message reason, not the improper-counterpart
reason the claim demands for every such thread. -/
theorem improper_counterpart_c4_counterexample :
    combineSkip "58988" [pmI1] = (some "single_message_thread", 0) ∧
      threadIsGroup [pmI1] = false ∧
      is_improper_counterpart (threadCounterpart "58988" [pmI1]) = true := by
  decide

/-- Claim C4 (amended): a finalized one-to-one thread with an improper
phone-shaped counterpart and at least two surviving messages is excluded
and logged with the improper-counterpart reason (with one surviving
message the single-message rule takes precedence), and a group thread is
never excluded by the improper-counterpart rule. -/
theorem improper_counterpart_skip (pk : String) (msgs : List ParsedMessage) :
    (threadIsGroup msgs = false → is_improper_counterpart (threadCounterpart pk msgs) = true →
      2 ≤ (threadMessages msgs).length →
      (combineSkip pk msgs).1 = some "improper_number_thread" ∧
      ∀ rest, (processGroups ((pk, msgs) :: rest)).threads_written = (processGroups rest).threads_written ∧
        (pk, "improper_number_thread", msgs.length) ∈ (processGroups ((pk, msgs) :: rest)).skipped) ∧
    (threadIsGroup msgs = true → (combineSkip pk msgs).1 ≠ some "improper_number_thread") := by
  constructor
  · intro hg hi hlen
    have hs : combineSkip pk msgs = (some "improper_number_thread", (dedupe_messages msgs).2) := by
      unfold combineSkip
      rw [if_neg (by omega), if_pos (by simp [hg, hi])]
    refine ⟨by rw [hs], fun rest => ?_⟩
    constructor
    · simp [processGroups, hs]
    · simp [processGroups, hs]
  · intro hg
    unfold combineSkip
    by_cases hlen : (threadMessages msgs).length ≤ 1
    · rw [if_pos hlen]
      simp
    · rw [if_neg hlen, if_neg (by simp [hg])]
      simp

/-- Witness for the amended claim C4: a two-message short-code thread is
skipped as improper, and a two-message group thread is not. -/
theorem improper_counterpart_skip_witness :
    (combineSkip "58988" [pmI1, pmI2]).1 = some "improper_number_thread" ∧
      (combineSkip "gk" [pmG1, pmG2]).1 ≠ some "improper_number_thread" :=
  ⟨((improper_counterpart_skip "58988" [pmI1, pmI2]).1 (by decide) (by decide) (by decide)).1,
   (improper_counterpart_skip "gk" [pmG1, pmG2]).2 (by decide)⟩

theorem combineSkip_cases (pk : String) (msgs : List ParsedMessage) :
    (combineSkip pk msgs).1 = none ∨ (combineSkip pk msgs).1 = some "single_message_thread" ∨
      (combineSkip pk msgs).1 = some "improper_number_thread" := by
  unfold combineSkip
  split
  · right; left; rfl
  · split
    · right; right; rfl
    · left; rfl

theorem removedInSkipped_cons (g : String × List ParsedMessage)
    (rest : List (String × List ParsedMessage)) :
    removedInSkipped (g :: rest) =
      (if (combineSkip g.1 g.2).1 ≠ none then ((combineSkip g.1 g.2).2 : Int) else 0) +
        removedInSkipped rest := by
  unfold removedInSkipped
  rw [List.filter_cons]
  by_cases h : (combineSkip g.1 g.2).1 ≠ none
  · simp [h]
  · simp [h]

/-- Claim C6 (amended): per thread, surviving messages plus removed
duplicates equal the input count; run-wide, messages written plus messages
skipped plus total duplicates removed equal total records seen plus the
duplicates removed inside skipped threads (the latter are counted both in
the skipped total, which uses pre-dedup thread sizes, and in the removed
total). -/
theorem message_count_accounting :
    (∀ msgs : List ParsedMessage,
      (dedupe_messages msgs).1.length + (dedupe_messages msgs).2 = msgs.length) ∧
    (∀ groups : List (String × List ParsedMessage),
      messages_written (processGroups groups) +
        ((processGroups groups).messages_skipped : Int) +
        ((processGroups groups).total_dedup_removed : Int) =
      ((processGroups groups).messages_total : Int) + removedInSkipped groups) := by
  constructor
  · intro msgs
    exact dedupeAux_count msgs [] []
  · intro groups
    induction groups with
    | nil => simp [processGroups, messages_written, removedInSkipped]
    | cons g rest ih =>
      rcases combineSkip_cases g.1 g.2 with hc | hc | hc
      · have h1 : (processGroups (g :: rest)).messages_total =
            g.2.length + (processGroups rest).messages_total := by
          simp [processGroups, hc]
        have h2 : (processGroups (g :: rest)).total_dedup_removed =
            (combineSkip g.1 g.2).2 + (processGroups rest).total_dedup_removed := by
          simp [processGroups, hc]
        have h3 : (processGroups (g :: rest)).messages_skipped =
            (processGroups rest).messages_skipped := by
          simp [processGroups, hc]
        have h4 : (processGroups (g :: rest)).threads_written =
            (g.1, g.2.length, (combineSkip g.1 g.2).2) :: (processGroups rest).threads_written := by
          simp [processGroups, hc]
        rw [removedInSkipped_cons, if_neg (by simp [hc])]
        simp only [messages_written, h1, h2, h3, h4, List.map_cons, List.sum_cons] at *
        push_cast at *
        omega
      all_goals {
        have h1 : (processGroups (g :: rest)).messages_total =
            g.2.length + (processGroups rest).messages_total := by
          simp [processGroups, hc]
        have h2 : (processGroups (g :: rest)).total_dedup_removed =
            (combineSkip g.1 g.2).2 + (processGroups rest).total_dedup_removed := by
          simp [processGroups, hc]
        have h3 : (processGroups (g :: rest)).messages_skipped =
            g.2.length + (processGroups rest).messages_skipped := by
          simp [processGroups, hc]
        have h4 : (processGroups (g :: rest)).threads_written =
            (processGroups rest).threads_written := by
          simp [processGroups, hc]
        rw [removedInSkipped_cons, if_pos (by simp [hc])]
        simp only [messages_written, h1, h2, h3, h4] at *
        push_cast at *
        omega
      }

/-- Claim C6 counterexample: one thread of two exact duplicates yields
messages_total 2 but written + skipped + removed = 0 + 2 + 1 = 3, so the
claimed conservation identity is false of the code. -/
theorem message_count_c6_counterexample :
    ¬ (messages_written (processGroups [("k", [mD, mD])]) +
        ((processGroups [("k", [mD, mD])]).messages_skipped : Int) +
        ((processGroups [("k", [mD, mD])]).total_dedup_removed : Int) =
      ((processGroups [("k", [mD, mD])]).messages_total : Int)) := by
  decide

theorem upInsert_length (key : PKey) (p : Participant) (out : List (PKey × Participant)) :
    (upInsert key p out).length ≤ out.length + 1 := by
  induction out with
  | nil => simp [upInsert]
  | cons kv rest ih =>
    obtain ⟨k, cur⟩ := kv
    simp only [upInsert]
    split
    · simp
    · simp only [List.length_cons]
      omega

theorem upAux_length (ps : List Participant) :
    ∀ (i : Nat) (out : List (PKey × Participant)),
      (upAux i ps out).length ≤ out.length + ps.length := by
  induction ps with
  | nil => intro i out; simp [upAux]
  | cons p rest ih =>
    intro i out
    simp only [upAux]
    have h1 := ih (i + 1) (upInsert (participant_key i p) p out)
    have h2 := upInsert_length (participant_key i p) p out
    simp only [List.length_cons]
    omega

theorem unique_participants_length (ps : List Participant) :
    (unique_participants ps).length ≤ ps.length := by
  unfold unique_participants
  rw [ssortBy_length, List.length_map]
  have := upAux_length ps 0 []
  simpa using this

/-- Claim C7: participant dedup returns at most as many participants as
observations; in each bucket merge, a truthy addr (and phone) is never
removed or replaced, these fields only ever go from falsy to truthy; and a
recorded (truthy) name changes only from a phone-shaped label to a
non-phone-shaped name, never the reverse. -/
theorem participant_dedup_invariants :
    (∀ ps : List Participant, (unique_participants ps).length ≤ ps.length) ∧
    (∀ cur p : Participant,
      (pytruthy cur.addr = true → (mergePart cur p).addr = cur.addr) ∧
      ((mergePart cur p).addr ≠ cur.addr →
        pytruthy (mergePart cur p).addr = true ∧ pytruthy cur.addr = false)) ∧
    (∀ cur p : Participant,
      (pytruthy cur.phone = true → (mergePart cur p).phone = cur.phone) ∧
      ((mergePart cur p).phone ≠ cur.phone →
        pytruthy (mergePart cur p).phone = true ∧ pytruthy cur.phone = false)) ∧
    (∀ cur p : Participant, pytruthy cur.name = true → (mergePart cur p).name ≠ cur.name →
      looks_like_phone_label cur.name = true ∧
        looks_like_phone_label (mergePart cur p).name = false ∧
        (mergePart cur p).name = p.name) := by
  refine ⟨unique_participants_length, ?_, ?_, ?_⟩
  · intro cur p
    constructor
    · intro h
      simp [mergePart, h]
    · intro h
      by_cases hc : (!(pytruthy cur.addr) && pytruthy p.addr) = true
      · have hm : (mergePart cur p).addr = p.addr := by simp [mergePart, hc]
        rw [Bool.and_eq_true, Bool.not_eq_true'] at hc
        exact ⟨by rw [hm]; exact hc.2, hc.1⟩
      · have hm : (mergePart cur p).addr = cur.addr := by
          simp only [mergePart]
          rw [if_neg (by simpa using hc)]
        exact absurd hm h
  · intro cur p
    constructor
    · intro h
      simp [mergePart, h]
    · intro h
      by_cases hc : (!(pytruthy cur.phone) && pytruthy p.phone) = true
      · have hm : (mergePart cur p).phone = p.phone := by simp [mergePart, hc]
        rw [Bool.and_eq_true, Bool.not_eq_true'] at hc
        exact ⟨by rw [hm]; exact hc.2, hc.1⟩
      · have hm : (mergePart cur p).phone = cur.phone := by
          simp only [mergePart]
          rw [if_neg (by simpa using hc)]
        exact absurd hm h
  · intro cur p hname hne
    by_cases hb : is_better_name cur.name p.name = true
    · have hm : (mergePart cur p).name = p.name := by simp [mergePart, hb]
      unfold is_better_name at hb
      by_cases hpn : pytruthy p.name = true
      · rw [if_neg (by simp [hpn]), if_neg (by simp [hname])] at hb
        rw [Bool.and_eq_true, Bool.not_eq_true'] at hb
        exact ⟨hb.1, by rw [hm]; exact hb.2, hm⟩
      · rw [if_pos (by simp [Bool.not_eq_true] at hpn; simp [hpn])] at hb
        exact absurd hb (by simp)
    · have hm : (mergePart cur p).name = cur.name := by
        simp only [mergePart]
        rw [if_neg hb]
      exact absurd hm hne

/-- Witness for claim C7 at a concrete bucket merge: the recorded addr is
kept, and the phone-shaped name is upgraded to a human name. -/
theorem participant_dedup_invariants_witness :
    (mergePart partCurW partNewW).addr = partCurW.addr ∧
      looks_like_phone_label partCurW.name = true ∧
      looks_like_phone_label (mergePart partCurW partNewW).name = false :=
  ⟨(participant_dedup_invariants.2.1 partCurW partNewW).1 (by decide),
   (participant_dedup_invariants.2.2.2 partCurW partNewW (by decide) (by decide)).1,
   (participant_dedup_invariants.2.2.2 partCurW partNewW (by decide) (by decide)).2.1⟩

theorem mem_setAdd_self (S : List String) (x : String) : x ∈ setAdd S x := by
  unfold setAdd
  split
  · assumption
  · simp

theorem mem_setAdd_mono (S : List String) (x y : String) (h : x ∈ S) : x ∈ setAdd S y := by
  unfold setAdd
  split
  · exact h
  · simp [h]

theorem foldl_setAdd_mono (g : String → String) (l : List String) :
    ∀ (acc : List String) (x : String), x ∈ acc →
      x ∈ l.foldl (fun a y => setAdd a (g y)) acc := by
  induction l with
  | nil => intro acc x h; simpa using h
  | cons b bs ih =>
    intro acc x h
    simp only [List.foldl_cons]
    exact ih _ x (mem_setAdd_mono acc x (g b) h)

theorem selfStep_mono (S : List String) (t0 x : String) (h : x ∈ S) : x ∈ selfStep S t0 := by
  unfold selfStep
  split
  · exact h
  · split
    · exact mem_setAdd_mono S x _ h
    · exact foldl_setAdd_mono _ _ _ x (mem_setAdd_mono S x _ h)

theorem selfStep_adds (S : List String) (t0 : String) (h : normalize_addr (some t0) ≠ "") :
    normalize_addr (some t0) ∈ selfStep S t0 := by
  unfold selfStep
  rw [if_neg h]
  split
  · exact mem_setAdd_self S _
  · exact foldl_setAdd_mono _ _ _ _ (mem_setAdd_self S _)

theorem foldl_selfStep_mono (ids : List String) :
    ∀ (acc : List String) (x : String), x ∈ acc → x ∈ ids.foldl selfStep acc := by
  induction ids with
  | nil => intro acc x h; simpa using h
  | cons i rest ih =>
    intro acc x h
    simp only [List.foldl_cons]
    exact ih _ x (selfStep_mono acc i x h)

/-- Claim C9 (amended): an invalid self-identifier phone is not fatal —
every configured identifier with a nonempty normalized form, valid or not,
is simply accepted into the self set, and the written-form expansion is
produced only for identifiers whose digit string has length exactly 10. -/
theorem build_self_set_total :
    (∀ (ids : List String) (t : String), t ∈ ids → normalize_addr (some t) ≠ "" →
      normalize_addr (some t) ∈ build_self_set ids) ∧
    (∀ d : String, d.toList.length ≠ 10 → phone_variants d = [d]) := by
  constructor
  · intro ids t ht hnorm
    unfold build_self_set
    have main : ∀ (l : List String) (acc : List String), t ∈ l →
        normalize_addr (some t) ∈ l.foldl selfStep acc := by
      intro l
      induction l with
      | nil => intro acc h; simp at h
      | cons i rest ih =>
        intro acc h
        simp only [List.foldl_cons]
        rcases List.mem_cons.mp h with h | h
        · subst h
          exact foldl_selfStep_mono rest _ _ (selfStep_adds acc t hnorm)
        · exact ih _ h
    exact main ids [] ht
  · intro d h
    unfold phone_variants
    rw [if_neg h]

/-- Claim C9 counterexample: the 7-digit self identifier "5551234" does not
normalize to 10 digits, yet self-set construction accepts it without any
failure — the set is simply the identifier itself, unexpanded. -/
theorem build_self_set_c9_counterexample :
    build_self_set ["5551234"] = ["5551234"] ∧
      sanitize_phoneish (some "5551234") = some "5551234" ∧
      ¬ (("5551234" : String).toList.length = 10) := by
  decide

/-- Witness for the amended claim C9 at a concrete invalid identifier. -/
theorem build_self_set_total_witness :
    normalize_addr (some "5551234") ∈ build_self_set ["5551234"] ∧
      phone_variants "12345678" = ["12345678"] :=
  ⟨build_self_set_total.1 ["5551234"] "5551234" (by decide) (by decide),
   build_self_set_total.2 "12345678" (by decide)⟩
